import Mathlib

/-!
Verification of the BudgeterProject accounting core against its specification.

The development shallowly embeds the repository's Python code:
* `src/budgeter_core.py` : `Transaction`, `Goal`, `Account` with
  `balance`, `recent_transactions` and `estimate_eta_weeks`;
* `src/budgeter_gui.py`  : `_prune_old_transactions` (the Retention Filter),
  `load_goals`, and the goal progress-percent clamp of
  `GoalRowWidget.update_from_goal`.

Modelling conventions:
* Python `float` amounts and times are modelled as exact rationals `ℚ`
  (the spec calls amounts "decimal currency values");
* `datetime.date` values (day granularity, core module) are integers `ℤ`
  counting days; `datetime.datetime` values (GUI module) are rationals `ℚ`
  counting days, so that `timedelta(days=7)` is subtraction of `7`;
* `datetime.fromisoformat` is an abstract parameter
  `parse : String → Option ℚ`; theorems that need facts about it
  (for instance that the empty string never parses, or that
  `fromisoformat (now.isoformat ())` gives back `now`) take them as
  hypotheses, discharged on concrete parse tables in the witnesses;
* raising `ValueError` in `Transaction.__post_init__` is modelled by an
  `Except` -returning smart constructor;
* Python integer coercion `int x` truncates toward zero, Python string
  formatting `.0f` / `.1f` rounds half to even; both are modelled exactly.
-/

namespace Budgeter

/-- The two `ValueError`s of `Transaction.__post_init__`:
`"amount must be > 0"` (InvalidAmount) and
`"t_type must be 'income' or 'expense'"` (InvalidKind). -/
inductive TxnError where
  | invalidAmount
  | invalidKind
deriving DecidableEq, Repr

/-- `Transaction` from `src/budgeter_core.py`: `amount : float`,
`t_type : str` (`"income"` or `"expense"`), `category`, `note`,
and `date : datetime.date` (modelled as an integer day number). -/
structure Transaction where
  amount : ℚ
  t_type : String
  category : String
  note : String
  date : ℤ
deriving DecidableEq, Repr

/-- `Transaction.__post_init__` as a smart constructor: the Python
constructor runs the dataclass field assignment and then `__post_init__`,
which first checks `amount <= 0` and then
`t_type not in ("income", "expense")`, raising `ValueError` for whichever
fails first. -/
def Transaction.make (amount : ℚ) (t_type category note : String) (d : ℤ) :
    Except TxnError Transaction :=
  if amount ≤ 0 then .error .invalidAmount
  else if ¬(t_type = "income" ∨ t_type = "expense") then .error .invalidKind
  else .ok ⟨amount, t_type, category, note, d⟩

/-- `Transaction.signed_amount`: `amount` for `"income"`, `-amount`
otherwise. -/
def Transaction.signed_amount (t : Transaction) : ℚ :=
  if t.t_type = "income" then t.amount else -t.amount

/-- `Goal` from `src/budgeter_core.py`; the dataclass performs no
validation of its fields. -/
structure Goal where
  name : String
  current_amount : ℚ
  target_amount : ℚ
deriving DecidableEq, Repr

/-- `Goal.remaining`: `max(0.0, target_amount - balance)`. -/
def Goal.remaining (g : Goal) (balance : ℚ) : ℚ :=
  max 0 (g.target_amount - balance)

/-- `Account` from `src/budgeter_core.py`. -/
structure Account where
  name : String
  goal : Option Goal := none
  transactions : List Transaction := []
deriving DecidableEq, Repr

/-- `Account.add_transaction`: appends to the end of the list. -/
def Account.add_transaction (a : Account) (t : Transaction) : Account :=
  { a with transactions := a.transactions ++ [t] }

/-- `Account.balance`: Python `sum(t.signed_amount for t in self.transactions)`,
a left fold starting from `0`. -/
def Account.balance (a : Account) : ℚ :=
  a.transactions.foldl (fun s t => s + t.signed_amount) 0

/-- Python list slicing `xs[s:]` for an arbitrary integer start `s`:
a negative start counts from the end (clamped to the front), a
nonnegative start is clamped to the length. -/
def pySliceFrom (xs : List α) (s : ℤ) : List α :=
  if s < 0 then xs.drop ((xs.length : ℤ) + s).toNat else xs.drop s.toNat

/-- `Account.recent_transactions(n)`: Python `self.transactions[-n:]`. -/
def Account.recent_transactions (a : Account) (n : ℤ) : List Transaction :=
  pySliceFrom a.transactions (-n)

/-- Round half to even, the rounding applied by Python `format(x, '.0f')`
(on our exact-rational model of the float values). -/
def roundHalfEven (q : ℚ) : ℤ :=
  if q - ⌊q⌋ < 1 / 2 then ⌊q⌋
  else if 1 / 2 < q - ⌊q⌋ then ⌊q⌋ + 1
  else if ⌊q⌋ % 2 = 0 then ⌊q⌋ else ⌊q⌋ + 1

/-- Python `f"{x:.0f}"` on a (nonnegative) value: the value rounded
half-to-even to an integer, printed in decimal. -/
def fmt0 (q : ℚ) : String := toString (roundHalfEven q)

/-- Python `f"{x:.1f}"` on a (nonnegative) value: the value rounded
half-to-even to one decimal place. -/
def fmt1 (q : ℚ) : String :=
  (if roundHalfEven (q * 10) < 0 then "-" else "") ++
    toString ((roundHalfEven (q * 10)).natAbs / 10) ++ "." ++
    toString ((roundHalfEven (q * 10)).natAbs % 10)

/-- The `recent` list of `Account.estimate_eta_weeks`:
`[t for t in self.transactions if t.date >= cutoff]` with
`cutoff = date.today() - timedelta(days=lookback_days)`. -/
def Account.recent_window (a : Account) (today lookback_days : ℤ) : List Transaction :=
  a.transactions.filter fun t => today - lookback_days ≤ t.date

/-- The `net` value of `Account.estimate_eta_weeks`:
`sum(t.signed_amount for t in recent)`. -/
def Account.net_recent (a : Account) (today lookback_days : ℤ) : ℚ :=
  (a.recent_window today lookback_days).foldl (fun s t => s + t.signed_amount) 0

/-- The `avg_per_week` value of `Account.estimate_eta_weeks`:
`net / max(1, lookback_days / 7)` (Python true division). -/
def Account.avg_per_week (a : Account) (today lookback_days : ℤ) : ℚ :=
  a.net_recent today lookback_days / max 1 ((lookback_days : ℚ) / 7)

/-- `Account.estimate_eta_weeks(lookback_days)` from `src/budgeter_core.py`,
with `date.today()` passed explicitly as `today`. -/
def Account.estimate_eta_weeks (a : Account) (today : ℤ) (lookback_days : ℤ := 56) : String :=
  match a.goal with
  | none => "No goal set"
  | some goal =>
    if goal.remaining a.balance ≤ 0 then "Goal reached 🎉"
    else if a.transactions = [] then "Add more data"
    else if a.recent_window today lookback_days = [] then "Add more recent data"
    else if a.avg_per_week today lookback_days ≤ 0 then "No positive trend"
    else
      let weeks := goal.remaining a.balance / a.avg_per_week today lookback_days
      "~" ++ fmt0 weeks ++ " weeks (~" ++ fmt1 (weeks / 4) ++ " months)"

/-! ## Concrete accounts used by witnesses and counterexamples -/

/-- Scenario A of the spec: Goal(target=3000, current=0), entries
[+1000 income, -200 expense]. -/
def accA : Account :=
  ⟨"checking", some ⟨"vacation", 0, 3000⟩,
    [⟨1000, "income", "salary", "", 0⟩, ⟨200, "expense", "rent", "", 1⟩]⟩

/-- A one-entry account with no goal. -/
def accOne : Account := ⟨"acct", none, [⟨5, "income", "misc", "", 0⟩]⟩

/-! ## C3 / C10: Ledger Entry construction -/

/-- C3 (amended): for every `amount ≤ 0` construction fails with
`InvalidAmount`; for every `amount > 0` and kind outside
`{income, expense}` it fails with `InvalidKind`; for every `amount > 0`
and kind in `{income, expense}` it succeeds, with no validation of
`category`/`note` and no effect beyond producing exactly the value. -/
theorem transaction_make_spec (amount : ℚ) (k c note : String) (d : ℤ) :
    (amount ≤ 0 → Transaction.make amount k c note d = .error .invalidAmount) ∧
    (0 < amount → ¬(k = "income" ∨ k = "expense") →
        Transaction.make amount k c note d = .error .invalidKind) ∧
    (0 < amount → (k = "income" ∨ k = "expense") →
        Transaction.make amount k c note d = .ok ⟨amount, k, c, note, d⟩) := by
  refine ⟨fun h => ?_, fun h1 h2 => ?_, fun h1 h2 => ?_⟩
  · simp only [Transaction.make, if_pos h]
  · simp only [Transaction.make, if_neg (not_le.mpr h1), if_pos h2]
  · simp only [Transaction.make, if_neg (not_le.mpr h1), if_neg (not_not_intro h2)]

/-- C3 witness: a positive-amount income entry is constructed as-is. -/
theorem transaction_make_spec_witness :
    Transaction.make 5 "income" "food" "" 0 = .ok ⟨5, "income", "food", "", 0⟩ :=
  (transaction_make_spec 5 "income" "food" "" 0).2.2 (by norm_num) (Or.inl rfl)

/-- C3 counterexample: at `amount = -1` and `kind = "transfer"` (a kind
outside `{income, expense}`) construction fails with `InvalidAmount`,
not with `InvalidKind` as the claim, read literally, requires. -/
theorem transaction_make_counterexample :
    Transaction.make (-1) "transfer" "groceries" "" 0 = Except.error TxnError.invalidAmount ∧
    Transaction.make (-1) "transfer" "groceries" "" 0 ≠ Except.error TxnError.invalidKind := by
  have h : Transaction.make (-1) "transfer" "groceries" "" 0 =
      Except.error TxnError.invalidAmount := by
    simp only [Transaction.make, if_pos (show (-1 : ℚ) ≤ 0 by norm_num)]
  refine ⟨h, ?_⟩
  rw [h]
  intro hc
  exact TxnError.noConfusion (Except.error.inj hc)

/-- C10: the amount check precedes the kind check: any `amount ≤ 0` fails
with `InvalidAmount` whatever the kind is, and an `InvalidKind` failure
can only arise when `0 < amount`. -/
theorem transaction_amount_checked_first (amount : ℚ) (k c note : String) (d : ℤ) :
    (amount ≤ 0 → Transaction.make amount k c note d = .error .invalidAmount) ∧
    (Transaction.make amount k c note d = .error .invalidKind → 0 < amount) := by
  constructor
  · intro h
    simp only [Transaction.make, if_pos h]
  · intro h
    by_contra hlt
    rw [not_lt] at hlt
    have hA : Transaction.make amount k c note d = .error .invalidAmount := by
      simp only [Transaction.make, if_pos hlt]
    rw [hA] at h
    exact TxnError.noConfusion (Except.error.inj h)

/-- C10 witness: `amount = -2` with the invalid kind `"bogus"` still
reports `InvalidAmount`. -/
theorem transaction_amount_checked_first_witness :
    Transaction.make (-2) "bogus" "x" "y" 3 = .error .invalidAmount :=
  (transaction_amount_checked_first (-2) "bogus" "x" "y" 3).1 (by norm_num)

/-! ## C4: Account.balance -/

/-- C4: `balance()` is the sum of `signed_amount` over all entries, is
invariant under permutation of the entries, and is `0` on an empty
account. -/
theorem balance_sum_spec (a : Account) :
    a.balance = (a.transactions.map Transaction.signed_amount).sum ∧
    (∀ l : List Transaction, a.transactions.Perm l →
        a.balance = Account.balance { a with transactions := l }) ∧
    (a.transactions = [] → a.balance = 0) := by
  have key : ∀ b : Account, b.balance = (b.transactions.map Transaction.signed_amount).sum := by
    intro b
    rw [Account.balance, List.sum_eq_foldl, List.foldl_map]
  refine ⟨key a, fun l hperm => ?_, fun hnil => ?_⟩
  · rw [key a, key { a with transactions := l }]
    exact List.Perm.sum_eq (hperm.map Transaction.signed_amount)
  · rw [key a, hnil]
    rfl

/-- C4 witness: Scenario A's account has the same balance after its
entries are reversed. -/
theorem balance_sum_spec_witness :
    Account.balance accA =
      Account.balance { accA with transactions := accA.transactions.reverse } :=
  (balance_sum_spec accA).2.1 accA.transactions.reverse (by decide)

/-! ## C7: Account.recent_transactions -/

/-- C7 counterexample: Python `xs[-n:]` at `n = 0` is `xs[0:]`, the whole
list: on a one-entry account `recent_transactions 0` returns 1 item,
which is more than `n = 0`. -/
theorem recent_transactions_zero_counterexample :
    Account.recent_transactions accOne 0 = accOne.transactions ∧
    (Account.recent_transactions accOne 0).length = 1 ∧
    ¬((Account.recent_transactions accOne 0).length ≤ 0) := by decide

/-- C7 (amended): for every `n ≥ 1`, `recent_transactions n` is the
suffix of the last `min n (length)` entries in original insertion order:
at most `n` items, at most the entry count, the whole sequence when `n`
reaches the entry count, and a suffix of the untouched sequence. -/
theorem recent_transactions_spec (a : Account) (n : ℤ) (hn : 1 ≤ n) :
    Account.recent_transactions a n =
      a.transactions.drop (a.transactions.length - n.toNat) ∧
    (Account.recent_transactions a n).length ≤ n.toNat ∧
    (Account.recent_transactions a n).length ≤ a.transactions.length ∧
    ((a.transactions.length : ℤ) ≤ n → Account.recent_transactions a n = a.transactions) ∧
    List.IsSuffix (Account.recent_transactions a n) a.transactions := by
  have hneg : -n < 0 := by omega
  have hmain : Account.recent_transactions a n =
      a.transactions.drop (a.transactions.length - n.toNat) := by
    rw [Account.recent_transactions, pySliceFrom, if_pos hneg]
    congr 1
    omega
  refine ⟨hmain, ?_, ?_, fun hle => ?_, ?_⟩
  · rw [hmain, List.length_drop]
    omega
  · rw [hmain, List.length_drop]
    omega
  · rw [hmain, show a.transactions.length - n.toNat = 0 by omega, List.drop_zero]
  · rw [hmain]
    exact List.drop_suffix _ _

/-- C7 witness: on the one-entry account, `recent_transactions 1` has at
most one item. -/
theorem recent_transactions_spec_witness :
    (Account.recent_transactions accOne 1).length ≤ (1 : ℤ).toNat :=
  (recent_transactions_spec accOne 1 (by decide)).2.1

/-! ## C1 / C5: Account.estimate_eta_weeks -/

/-- Unfolding of `estimate_eta_weeks` once the goal is known to be
attached. -/
theorem estimate_eta_weeks_some (a : Account) (g : Goal) (today lb : ℤ)
    (hg : a.goal = some g) :
    a.estimate_eta_weeks today lb =
      if g.remaining a.balance ≤ 0 then "Goal reached 🎉"
      else if a.transactions = [] then "Add more data"
      else if a.recent_window today lb = [] then "Add more recent data"
      else if a.avg_per_week today lb ≤ 0 then "No positive trend"
      else
        "~" ++ fmt0 (g.remaining a.balance / a.avg_per_week today lb) ++ " weeks (~" ++
          fmt1 (g.remaining a.balance / a.avg_per_week today lb / 4) ++ " months)" := by
  unfold Account.estimate_eta_weeks
  rw [hg]

/-- The `recent` list is empty exactly when no entry lies on or after the
cutoff `today - lookback_days`. -/
theorem recent_window_eq_nil_iff (a : Account) (today lb : ℤ) :
    a.recent_window today lb = [] ↔ ∀ t ∈ a.transactions, t.date < today - lb := by
  simp only [Account.recent_window, List.filter_eq_nil_iff, decide_eq_true_eq, not_le]

/-- C1: the decision order of `estimate_eta_weeks`: no goal, then goal
reached, then no entries, then no entry inside the lookback window, then
non-positive weekly average, and only past all five checks the numeric
estimate. -/
theorem estimate_eta_decision_order (a : Account) (today lookback_days : ℤ) :
    (a.goal = none → a.estimate_eta_weeks today lookback_days = "No goal set") ∧
    (∀ g, a.goal = some g → g.remaining a.balance ≤ 0 →
        a.estimate_eta_weeks today lookback_days = "Goal reached 🎉") ∧
    (∀ g, a.goal = some g → 0 < g.remaining a.balance → a.transactions = [] →
        a.estimate_eta_weeks today lookback_days = "Add more data") ∧
    (∀ g, a.goal = some g → 0 < g.remaining a.balance → a.transactions ≠ [] →
        (∀ t ∈ a.transactions, t.date < today - lookback_days) →
        a.estimate_eta_weeks today lookback_days = "Add more recent data") ∧
    (∀ g, a.goal = some g → 0 < g.remaining a.balance → a.transactions ≠ [] →
        (∃ t ∈ a.transactions, today - lookback_days ≤ t.date) →
        a.avg_per_week today lookback_days ≤ 0 →
        a.estimate_eta_weeks today lookback_days = "No positive trend") ∧
    (∀ g, a.goal = some g → 0 < g.remaining a.balance → a.transactions ≠ [] →
        (∃ t ∈ a.transactions, today - lookback_days ≤ t.date) →
        0 < a.avg_per_week today lookback_days →
        a.estimate_eta_weeks today lookback_days =
          "~" ++ fmt0 (g.remaining a.balance / a.avg_per_week today lookback_days) ++
            " weeks (~" ++
            fmt1 (g.remaining a.balance / a.avg_per_week today lookback_days / 4) ++
            " months)") := by
  refine ⟨fun hg => ?_, fun g hg hr => ?_, fun g hg hr hnil => ?_,
    fun g hg hr hne hall => ?_, fun g hg hr hne hex havg => ?_,
    fun g hg hr hne hex havg => ?_⟩
  · unfold Account.estimate_eta_weeks
    rw [hg]
  · rw [estimate_eta_weeks_some a g today lookback_days hg, if_pos hr]
  · rw [estimate_eta_weeks_some a g today lookback_days hg, if_neg (not_le.mpr hr),
      if_pos hnil]
  · rw [estimate_eta_weeks_some a g today lookback_days hg, if_neg (not_le.mpr hr),
      if_neg hne, if_pos ((recent_window_eq_nil_iff a today lookback_days).mpr hall)]
  · have hwne : ¬a.recent_window today lookback_days = [] := by
      intro h0
      obtain ⟨t, ht, hd⟩ := hex
      exact absurd hd (not_le.mpr ((recent_window_eq_nil_iff a today lookback_days).mp h0 t ht))
    rw [estimate_eta_weeks_some a g today lookback_days hg, if_neg (not_le.mpr hr),
      if_neg hne, if_neg hwne, if_pos havg]
  · have hwne : ¬a.recent_window today lookback_days = [] := by
      intro h0
      obtain ⟨t, ht, hd⟩ := hex
      exact absurd hd (not_le.mpr ((recent_window_eq_nil_iff a today lookback_days).mp h0 t ht))
    rw [estimate_eta_weeks_some a g today lookback_days hg, if_neg (not_le.mpr hr),
      if_neg hne, if_neg hwne, if_neg (not_le.mpr havg)]

/-- An account with no goal and no entries. -/
def accNoGoal : Account := ⟨"empty", none, []⟩

/-- C1 witness: without a goal the "no goal" sentinel is returned. -/
theorem estimate_eta_decision_order_witness :
    Account.estimate_eta_weeks accNoGoal 0 56 = "No goal set" :=
  (estimate_eta_decision_order accNoGoal 0 56).1 rfl

/-- C5: in the numeric case, `net` is the sum of signed amounts over the
windowed entries, `avg_per_week = net / max(1, lookback_days / 7)`, and
the rendered string carries `weeks = remaining / avg_per_week` rounded
to the nearest integer and `months = weeks / 4` to one decimal. -/
theorem estimate_eta_numeric_case (a : Account) (today lookback_days : ℤ) (g : Goal)
    (hg : a.goal = some g)
    (hr : 0 < g.remaining a.balance)
    (hwne : a.recent_window today lookback_days ≠ [])
    (havg : 0 < a.avg_per_week today lookback_days) :
    a.net_recent today lookback_days =
        ((a.recent_window today lookback_days).map Transaction.signed_amount).sum ∧
    a.avg_per_week today lookback_days =
        a.net_recent today lookback_days / max 1 ((lookback_days : ℚ) / 7) ∧
    a.estimate_eta_weeks today lookback_days =
      "~" ++ fmt0 (g.remaining a.balance / a.avg_per_week today lookback_days) ++
        " weeks (~" ++
        fmt1 (g.remaining a.balance / a.avg_per_week today lookback_days / 4) ++
        " months)" := by
  have hne : a.transactions ≠ [] := by
    intro h0
    apply hwne
    simp [Account.recent_window, h0]
  refine ⟨?_, rfl, ?_⟩
  · rw [Account.net_recent, List.sum_eq_foldl, List.foldl_map]
  · rw [estimate_eta_weeks_some a g today lookback_days hg, if_neg (not_le.mpr hr),
      if_neg hne, if_neg hwne, if_neg (not_le.mpr havg)]

/-- Rounding half to even fixes every integer. -/
theorem roundHalfEven_intCast (n : ℤ) : roundHalfEven (n : ℚ) = n := by
  rw [roundHalfEven, Int.floor_intCast, if_pos (by norm_num : ((n : ℚ) - n) < 1 / 2)]

/-- Scenario D's account: the goal needs $1000 beyond the balance, and
the single windowed entry nets +$250. -/
def accD : Account := ⟨"d", some ⟨"goal", 0, 1250⟩, [⟨250, "income", "c", "", 0⟩]⟩

/-- C5 witness (Scenario D): remaining 1000, net +250, lookback 56 days
renders weeks 32 and months 8.0. -/
theorem estimate_eta_numeric_case_witness :
    Account.estimate_eta_weeks accD 0 56 = "~32 weeks (~8.0 months)" := by
  have hbal : accD.balance = 250 := by
    simp [Account.balance, accD, Transaction.signed_amount]
  have hrem : Goal.remaining ⟨"goal", 0, 1250⟩ accD.balance = 1000 := by
    rw [hbal, Goal.remaining]
    norm_num
  have hwin : accD.recent_window 0 56 = accD.transactions := by decide
  have hnet : accD.net_recent 0 56 = 250 := by
    rw [Account.net_recent, hwin]
    simp [accD, Transaction.signed_amount]
  have havg : accD.avg_per_week 0 56 = 125 / 4 := by
    rw [Account.avg_per_week, hnet, show (((56 : ℤ) : ℚ) / 7) = 8 by norm_num,
      max_eq_right (by norm_num : (1 : ℚ) ≤ 8)]
    norm_num
  have h := (estimate_eta_numeric_case accD 0 56 ⟨"goal", 0, 1250⟩ rfl
    (by rw [hrem]; norm_num)
    (by rw [hwin]; exact fun hc => List.noConfusion (show accD.transactions = [] from hc ▸ rfl))
    (by rw [havg]; norm_num)).2.2
  rw [h, hrem, havg, show (1000 : ℚ) / (125 / 4) = ((32 : ℤ) : ℚ) by norm_num]
  have h32 : fmt0 ((32 : ℤ) : ℚ) = "32" := by
    rw [fmt0, roundHalfEven_intCast]
    rfl
  have h8 : fmt1 (((32 : ℤ) : ℚ) / 4) = "8.0" := by
    rw [fmt1, show (((32 : ℤ) : ℚ) / 4) * 10 = ((80 : ℤ) : ℚ) by norm_num,
      roundHalfEven_intCast]
    decide
  rw [h32, h8]
  rfl

/-! ## Retention Filter (`_prune_old_transactions` of src/budgeter_gui.py) -/

/-- A transactions-snapshot record as handled by
`_prune_old_transactions`: a dict with `kind`, `amount`, `category`,
`note` and an optional `timestamp` string (`tx.get("timestamp")` is
`None` when the key is absent). -/
structure TxRec where
  kind : String
  amount : ℚ
  category : String
  note : String
  timestamp : Option String
deriving DecidableEq, Repr

/-- `_prune_old_transactions` from `src/budgeter_gui.py`. `parse` stands
for `datetime.fromisoformat` (returning `none` where Python raises),
`now` for `datetime.now()` as a rational count of days (so
`timedelta(days=7)` is subtraction of `7`), and `nowStr` for
`now.isoformat()`. Python's `if not ts:` is true both for a missing and
for an empty-string timestamp. -/
def prune_old_transactions (parse : String → Option ℚ) (now : ℚ) (nowStr : String) :
    List TxRec → List TxRec
  | [] => []
  | tx :: rest =>
    match tx.timestamp with
    | none => { tx with timestamp := some nowStr } :: prune_old_transactions parse now nowStr rest
    | some ts =>
      if ts = "" then
        { tx with timestamp := some nowStr } :: prune_old_transactions parse now nowStr rest
      else
        match parse ts with
        | none => tx :: prune_old_transactions parse now nowStr rest
        | some dt =>
          if now - 7 ≤ dt then tx :: prune_old_transactions parse now nowStr rest
          else prune_old_transactions parse now nowStr rest

/-- The retention predicate as the specification words it: keep a record
whose timestamp is missing, fails to parse, or parses to a time on or
after `now - 7` days. -/
def keepSpec (parse : String → Option ℚ) (now : ℚ) (tx : TxRec) : Bool :=
  match tx.timestamp with
  | none => true
  | some ts =>
    match parse ts with
    | none => true
    | some dt => decide (now - 7 ≤ dt)

/-- The keep decision the code makes: identical to `keepSpec` except that
an empty-string timestamp is kept via the falsy branch (it is also kept
by `keepSpec` whenever the empty string fails to parse). -/
def keepCode (parse : String → Option ℚ) (now : ℚ) (tx : TxRec) : Bool :=
  match tx.timestamp with
  | none => true
  | some ts =>
    if ts = "" then true
    else
      match parse ts with
      | none => true
      | some dt => decide (now - 7 ≤ dt)

/-- The mutation the filter applies to a kept record: a record with a
Python-falsy timestamp (absent or empty) gets `now.isoformat()`; every
other record passes through unchanged. -/
def refreshTimestamp (nowStr : String) (tx : TxRec) : TxRec :=
  if tx.timestamp = none ∨ tx.timestamp = some "" then { tx with timestamp := some nowStr }
  else tx

/-- One pass of the filter is: keep by `keepCode`, refresh falsy
timestamps, preserve order. -/
theorem prune_eq_filter_map (parse : String → Option ℚ) (now : ℚ) (nowStr : String)
    (txs : List TxRec) :
    prune_old_transactions parse now nowStr txs =
      (txs.filter (keepCode parse now)).map (refreshTimestamp nowStr) := by
  induction txs with
  | nil => rfl
  | cons tx rest ih =>
    cases hts : tx.timestamp with
    | none =>
      simp [prune_old_transactions, keepCode, refreshTimestamp, hts, ih, List.filter_cons]
    | some ts =>
      by_cases hempty : ts = ""
      · subst hempty
        simp [prune_old_transactions, keepCode, refreshTimestamp, hts, ih, List.filter_cons]
      · cases hp : parse ts with
        | none =>
          simp [prune_old_transactions, keepCode, refreshTimestamp, hts, hempty, hp, ih,
            List.filter_cons]
        | some dt =>
          by_cases hdt : now - 7 ≤ dt
          · simp [prune_old_transactions, keepCode, refreshTimestamp, hts, hempty, hp, hdt,
              ih, List.filter_cons]
          · simp [prune_old_transactions, keepCode, refreshTimestamp, hts, hempty, hp, hdt,
              ih, List.filter_cons]

/-- Refreshing a timestamp twice equals refreshing it once. -/
theorem refreshTimestamp_idem (nowStr : String) (tx : TxRec) :
    refreshTimestamp nowStr (refreshTimestamp nowStr tx) = refreshTimestamp nowStr tx := by
  by_cases hf : tx.timestamp = none ∨ tx.timestamp = some ""
  · by_cases hns : nowStr = ""
    · subst hns
      simp [refreshTimestamp, hf]
    · simp [refreshTimestamp, hf, hns]
  · simp [refreshTimestamp, hf]

/-- C2: one pass of the 7-day Retention Filter keeps exactly the records
the spec enumerates (missing timestamp, unparsable timestamp, or a
parsed time on or after `now - 7` days), assigns the filtering instant
to the kept records whose timestamp was falsy (in particular to every
record with a missing timestamp), and preserves the input order without
re-sorting. The hypothesis records that `fromisoformat` rejects the
empty string. -/
theorem prune_keeps_spec (parse : String → Option ℚ) (now : ℚ) (nowStr : String)
    (hE : parse "" = none) (txs : List TxRec) :
    prune_old_transactions parse now nowStr txs =
      (txs.filter (keepSpec parse now)).map (refreshTimestamp nowStr) := by
  rw [prune_eq_filter_map]
  congr 1
  apply List.filter_congr
  intro tx _
  cases hts : tx.timestamp with
  | none => simp [keepCode, keepSpec, hts]
  | some ts =>
    by_cases hempty : ts = ""
    · subst hempty
      simp [keepCode, keepSpec, hts, hE]
    · simp [keepCode, keepSpec, hts, hempty]

/-- Concrete stand-in for `datetime.fromisoformat` used by witnesses: a
small table of timestamp strings; everything else (including the empty
string) fails to parse. `now` is `100` and `now.isoformat()` is
`"D100"`. -/
def parseTs (s : String) : Option ℚ :=
  if s = "D95" then some 95
  else if s = "D90" then some 90
  else if s = "D100" then some 100
  else none

/-- A mixed input: a 5-day-old record (kept), a 10-day-old record
(dropped), a record with no timestamp, and a malformed one. -/
def txsW : List TxRec :=
  [⟨"income", 5, "a", "", some "D95"⟩,
   ⟨"expense", 6, "b", "", some "D90"⟩,
   ⟨"income", 7, "c", "", none⟩,
   ⟨"expense", 8, "d", "", some "not-a-date"⟩]

/-- C2 witness: the filter run on `txsW` at instant 100. -/
theorem prune_keeps_spec_witness :
    prune_old_transactions parseTs 100 "D100" txsW =
      (txsW.filter (keepSpec parseTs 100)).map (refreshTimestamp "D100") :=
  prune_keeps_spec parseTs 100 "D100" (by decide) txsW

/-- C6: the Retention Filter is idempotent at a fixed filtering instant.
The hypothesis records the `fromisoformat`/`isoformat` round trip:
parsing `now.isoformat()` gives back `now`. -/
theorem prune_idempotent (parse : String → Option ℚ) (now : ℚ) (nowStr : String)
    (hRe : parse nowStr = some now) (txs : List TxRec) :
    prune_old_transactions parse now nowStr (prune_old_transactions parse now nowStr txs) =
      prune_old_transactions parse now nowStr txs := by
  rw [prune_eq_filter_map parse now nowStr txs,
    prune_eq_filter_map parse now nowStr
      ((txs.filter (keepCode parse now)).map (refreshTimestamp nowStr))]
  have hkeep : ∀ tx ∈ (txs.filter (keepCode parse now)).map (refreshTimestamp nowStr),
      keepCode parse now tx = true := by
    intro tx htx
    rw [List.mem_map] at htx
    obtain ⟨ty, hty, rfl⟩ := htx
    have hky : keepCode parse now ty = true := (List.mem_filter.mp hty).2
    by_cases hf : ty.timestamp = none ∨ ty.timestamp = some ""
    · rw [refreshTimestamp, if_pos hf]
      by_cases hns : nowStr = ""
      · subst hns
        simp [keepCode]
      · simp [keepCode, hns, hRe, sub_le_self now (by norm_num : (0 : ℚ) ≤ 7)]
    · rw [refreshTimestamp, if_neg hf]
      exact hky
  rw [List.filter_eq_self.mpr hkeep, List.map_map]
  congr 1
  funext tx
  exact refreshTimestamp_idem nowStr tx

/-- C6 witness: a second pass over the filtered `txsW` changes nothing. -/
theorem prune_idempotent_witness :
    prune_old_transactions parseTs 100 "D100"
        (prune_old_transactions parseTs 100 "D100" txsW) =
      prune_old_transactions parseTs 100 "D100" txsW :=
  prune_idempotent parseTs 100 "D100" (by decide) txsW

/-- A record whose timestamp field is present but empty. -/
def txEmptyTs : TxRec := ⟨"expense", 5, "misc", "", some ""⟩

/-- C8 counterexample: `txEmptyTs` carries a present timestamp (`""`)
that fails to parse, yet one pass rewrites that timestamp to the
filtering instant: the record is not retained unmodified. -/
theorem prune_modifies_empty_timestamp :
    txEmptyTs.timestamp = some "" ∧
    parseTs "" = none ∧
    prune_old_transactions parseTs 100 "D100" [txEmptyTs] =
      [{ txEmptyTs with timestamp := some "D100" }] ∧
    txEmptyTs ∉ prune_old_transactions parseTs 100 "D100" [txEmptyTs] := by decide

/-- C8 (amended): a record with a present, non-empty timestamp that
fails to parse is retained with every field unmodified; and the filter
modifies no field of any record other than assigning the filtering
instant to the timestamp of records whose timestamp is Python-falsy
(missing or empty). -/
theorem prune_frame (parse : String → Option ℚ) (now : ℚ) (nowStr : String)
    (txs : List TxRec) :
    (∀ tx ∈ txs, ∀ ts, tx.timestamp = some ts → ts ≠ "" → parse ts = none →
        tx ∈ prune_old_transactions parse now nowStr txs) ∧
    (∀ tx' ∈ prune_old_transactions parse now nowStr txs,
        tx' ∈ txs ∨ ∃ tx ∈ txs, (tx.timestamp = none ∨ tx.timestamp = some "") ∧
          tx' = { tx with timestamp := some nowStr }) := by
  rw [prune_eq_filter_map]
  constructor
  · intro tx htx ts hts hne hp
    rw [List.mem_map]
    refine ⟨tx, List.mem_filter.mpr ⟨htx, ?_⟩, ?_⟩
    · simp [keepCode, hts, hne, hp]
    · simp [refreshTimestamp, hts, hne]
  · intro tx' htx'
    rw [List.mem_map] at htx'
    obtain ⟨ty, hty, rfl⟩ := htx'
    have htym : ty ∈ txs := (List.mem_filter.mp hty).1
    by_cases hf : ty.timestamp = none ∨ ty.timestamp = some ""
    · exact Or.inr ⟨ty, htym, hf, by rw [refreshTimestamp, if_pos hf]⟩
    · left
      rw [refreshTimestamp, if_neg hf]
      exact htym

/-- A record with a malformed (non-empty, unparsable) timestamp. -/
def txBadTs : TxRec := ⟨"income", 9, "e", "", some "garbage"⟩

/-- C8 witness: the malformed-timestamp record passes through unmodified. -/
theorem prune_frame_witness :
    txBadTs ∈ prune_old_transactions parseTs 100 "D100" [txBadTs] :=
  (prune_frame parseTs 100 "D100" [txBadTs]).1 txBadTs (by decide) "garbage" rfl
    (by decide) (by decide)

/-! ## C9: Goal validation and progress clamping -/

/-- A parsed JSON object of the goals snapshot, as consumed by
`load_goals` in `src/budgeter_gui.py`; each field may be absent, in
which case `item.get` supplies the default. -/
structure GoalItem where
  name : Option String
  current_amount : Option ℚ
  target_amount : Option ℚ
deriving DecidableEq, Repr

/-- One item of `load_goals`: `item.get("name", "Untitled")`,
`float(item.get("current_amount", 0.0))`,
`float(item.get("target_amount", 0.0))` — no validation of the amounts. -/
def load_goal_item (item : GoalItem) : Goal :=
  ⟨item.name.getD "Untitled", item.current_amount.getD 0, item.target_amount.getD 0⟩

/-- `load_goals` over an already-parsed goals snapshot (the JSON layer
and file handling are outside the model). -/
def load_goals (items : List GoalItem) : List Goal := items.map load_goal_item

/-- Python `int(x)`: truncation toward zero. -/
def pyInt (q : ℚ) : ℤ := if q < 0 then -⌊-q⌋ else ⌊q⌋

/-- The progress percent of `GoalRowWidget.update_from_goal`:
`int(current_amount / target_amount * 100)` when `target_amount > 0`
else `0`, then `max(0, min(percent, 100))`; a pure function of the Goal,
which itself is left untouched. -/
def goal_percent (g : Goal) : ℤ :=
  max 0
    (min (if 0 < g.target_amount then pyInt (g.current_amount / g.target_amount * 100) else 0)
      100)

/-- C9 counterexample: loading a snapshot item whose `target_amount` is
`-5` yields a Goal with a negative target; direct construction likewise
performs no validation. -/
theorem goal_negative_target_counterexample :
    load_goals [⟨some "g", some 0, some (-5)⟩] = [⟨"g", 0, -5⟩] ∧
    (Goal.mk "g" 0 (-5)).target_amount < 0 := by
  exact ⟨rfl, by norm_num⟩

/-- C9 (amended): neither direct construction nor snapshot loading
validates the amounts — the given values, including a negative target or
a current above target, are stored exactly as supplied — while the
progress-display percent is a pure function of the Goal clamped to
[0, 100], leaving the stored amounts untouched. -/
theorem goal_load_passthrough_and_clamp :
    (∀ n c t, load_goals [⟨some n, some c, some t⟩] = [⟨n, c, t⟩]) ∧
    (∀ g : Goal, 0 ≤ goal_percent g ∧ goal_percent g ≤ 100) := by
  refine ⟨fun n c t => rfl, fun g => ⟨le_max_left 0 _, ?_⟩⟩
  rw [goal_percent]
  exact max_le (by norm_num) (min_le_right _ _)

end Budgeter
